import Mathlib

/-!
Verification of the Context Snapshot Engine of claude-context-reporter.

Shallow embedding of the engine's modules:
* console-capture  (`src/utils/console-capture.ts`)
* reporter          (`logContextReport`, `checkServerAvailable`, `saveToLocalStorage`)
* state-adapters    (`captureAppState`, `cleanState`, `filterState`, redux adapter)
* component-path    (`src/utils/component-path.ts`)
* dom-utils         (`extractElementInfo` and its sub-extractors)

JavaScript strings are modelled as Lean `String` manipulated through
character-list helpers (so that every operation is kernel-computable);
JavaScript numbers are modelled as `Int` (no claim depends on float
semantics); JavaScript runtime values are modelled by the inductive
`JSVal`; operations that can throw are modelled in `Except Unit`.
-/

/-! ## JavaScript string primitives (kernel-computable models) -/

/-- Model of JS `String.prototype.startsWith`. -/
def jsStartsWith (s p : String) : Bool := p.toList.isPrefixOf s.toList

/-- Model of JS `String.prototype.endsWith`. -/
def jsEndsWith (s p : String) : Bool := p.toList.isSuffixOf s.toList

/-- Helper for `jsIncludes`: substring search over character lists. -/
def charsInclude (pat : List Char) : List Char → Bool
  | [] => pat.isPrefixOf []
  | c :: rest => pat.isPrefixOf (c :: rest) || charsInclude pat rest

/-- Model of JS `String.prototype.includes`. -/
def jsIncludes (s pat : String) : Bool := charsInclude pat.toList s.toList

/-- Model of JS `s.slice(0, n)` / `s.substring(0, n)` (first `n` characters). -/
def jsTake (s : String) (n : Nat) : String := String.mk (s.toList.take n)

/-- Model of JS `String.prototype.trim`. -/
def jsTrim (s : String) : String :=
  String.mk (((s.toList.dropWhile Char.isWhitespace).reverse.dropWhile Char.isWhitespace).reverse)

/-- Model of JS `String.prototype.toLowerCase` (ASCII fragment). -/
def jsToLower (s : String) : String := String.mk (s.toList.map Char.toLower)

/-- Helper for `jsSplitOnSpace`: split a character list at each space. -/
def splitChars : List Char → List String
  | [] => [""]
  | c :: rest =>
    let tail := splitChars rest
    if c = ' ' then "" :: tail
    else
      match tail with
      | h :: t => (String.mk [c] ++ h) :: t
      | [] => [String.mk [c]]

/-- Model of JS `s.split(' ')` (split on every single space). -/
def jsSplitOnSpace (s : String) : List String := splitChars s.toList

/-! ## JavaScript runtime values -/

/-- A JavaScript runtime value, as far as the engine inspects it.
`func` stands for any function value; `bigintVal` stands for a BigInt
(the one primitive `JSON.stringify` refuses to serialize). -/
inductive JSVal where
  | null
  | undef
  | bool (b : Bool)
  | num (n : Int)
  | str (s : String)
  | arr (xs : List JSVal)
  | obj (entries : List (String × JSVal))
  | func
  | bigintVal

/-- JS truthiness of a value. -/
def jsTruthy : JSVal → Bool
  | .null => false
  | .undef => false
  | .bool b => b
  | .num n => !(n == 0)
  | .str s => !(s == "")
  | _ => true

/-- The `Object.keys(v).length` for the shapes the engine inspects
(array keys are the indices; non-objects have no keys). -/
def jsKeysLength : JSVal → Nat
  | .obj es => es.length
  | .arr xs => xs.length
  | _ => 0

/-- JS `key in v` membership check (for the string keys the engine probes;
those are never array indices, so arrays answer `false`). -/
def jsHasKey (v : JSVal) (k : String) : Bool :=
  match v with
  | .obj es => es.any (fun e => e.1 == k)
  | _ => false

/-- Property lookup `v[k]` (`none` models `undefined`). -/
def jsGet (v : JSVal) (k : String) : Option JSVal :=
  match v with
  | .obj es => (es.find? (fun e => e.1 == k)).map (·.2)
  | _ => none

/-! ## console-capture (`src/utils/console-capture.ts`) -/

/-- Console channel being intercepted. -/
inductive LogLevel where
  | error
  | warn
deriving DecidableEq

/-- One captured console entry (level / message / timestamp). -/
structure ConsoleEntry where
  level : LogLevel
  message : String
  timestamp : Nat
deriving DecidableEq

/-- The `MAX_BUFFER_SIZE` from console-capture.ts. -/
def MAX_BUFFER_SIZE : Nat := 50

/-- One argument of a `console.error` / `console.warn` call, as far as
`addToBuffer` serializes it: an `Error` (name/message/optional stack), a
non-Error object (its `JSON.stringify(·, null, 2)` result when that does
not throw, and its `String(·)` coercion), or anything else via `String(·)`. -/
inductive ConsoleArg where
  | err (name message : String) (stack : Option String)
  | obj (json : Option String) (coerced : String)
  | prim (coerced : String)

/-- The per-argument serialization performed inside `addToBuffer`. -/
def serializeArg : ConsoleArg → String
  | .err n m st => n ++ ": " ++ m ++ "\n" ++ st.getD ""
  | .obj json coerced => json.getD coerced
  | .prim c => c

/-- The space-joined serialized message of one console invocation. -/
def joinedMessage (args : List ConsoleArg) : String :=
  String.intercalate " " (args.map serializeArg)

/-- The `while (buffer.length > MAX_BUFFER_SIZE) buffer.shift()` loop. -/
def trimBuffer (b : List ConsoleEntry) : List ConsoleEntry :=
  if MAX_BUFFER_SIZE < b.length then trimBuffer b.tail else b
termination_by b.length
decreasing_by
  cases b with
  | nil => simp [MAX_BUFFER_SIZE] at *
  | cons x xs => simp

/-- The `addToBuffer(level, args)` from console-capture.ts, acting on an explicit
buffer, with `Date.now()` passed in as `now`. -/
def addToBuffer (buffer : List ConsoleEntry) (level : LogLevel) (args : List ConsoleArg)
    (now : Nat) : List ConsoleEntry :=
  let message := joinedMessage args
  if jsIncludes message "[ContextReporter]" then buffer
  else trimBuffer (buffer ++ [{ level := level, message := jsTake message 1000, timestamp := now }])

/-! ## reporter (`logContextReport` and the availability cache) -/

/-- The module-level availability-cache state
(`cachedServerAvailable` / `lastServerCheck`). -/
structure ServerCache where
  cachedServerAvailable : Option Bool
  lastServerCheck : Nat
deriving DecidableEq

/-- The `SERVER_CHECK_INTERVAL` from the reporter module. -/
def SERVER_CHECK_INTERVAL : Nat := 5000

/-- Result of one `checkServerAvailable` call. `probed` records whether a
network round-trip (`fetch`) was issued; `finishedAt` is the time the call
resolves (entry time plus the fetch duration when a probe happens). -/
structure CheckResult where
  available : Bool
  cache : ServerCache
  probed : Bool
  finishedAt : Nat
deriving DecidableEq

/-- The `checkServerAvailable` from the reporter module. `now` is `Date.now()` at
entry; `fetchOk` is the probe outcome (`response.ok`, with timeout / network
error collapsed to `false` exactly as the `catch` branch does);
`fetchDuration` is how long the awaited fetch takes. The source stores the
entry time `now` — not the completion time — in `lastServerCheck`. -/
def checkServerAvailable (cache : ServerCache) (now : Nat) (fetchDuration : Nat)
    (fetchOk : Bool) : CheckResult :=
  if cache.cachedServerAvailable.isSome && decide (now - cache.lastServerCheck < SERVER_CHECK_INTERVAL) then
    { available := cache.cachedServerAvailable.getD false, cache := cache,
      probed := false, finishedAt := now }
  else
    { available := fetchOk,
      cache := { cachedServerAvailable := some fetchOk, lastServerCheck := now },
      probed := true, finishedAt := now + fetchDuration }

/-- A context report; only its identity matters to the delivery claims, so
the other report fields are not modelled. -/
structure ContextReport where
  id : String
deriving DecidableEq

/-- The `saveToLocalStorage`: prepend (`unshift`) and cap at 20 (`slice(0, 20)`).
The JSON round-trip through `localStorage` is modelled as the identity. -/
def saveToLocalStorage (stored : List ContextReport) (report : ContextReport) :
    List ContextReport :=
  (report :: stored).take 20

/-- The `{method, success}` value returned by `logContextReport`. -/
structure DeliveryResult where
  method : String
  success : Bool
deriving DecidableEq

/-- The `logContextReport` from the reporter module. `probeOk`/`postOk` are the
outcomes the network would give to the availability probe and to the
`POST /report` (false = network error, timeout or non-OK status, exactly the
cases the source collapses to a `false` result). Returns the delivery
result, the new cache state and the new localStorage contents. -/
def logContextReport (report : ContextReport) (forceConsole : Bool)
    (cache : ServerCache) (now : Nat) (probeDuration : Nat) (probeOk : Bool)
    (postOk : Bool) (stored : List ContextReport) :
    DeliveryResult × ServerCache × List ContextReport :=
  let stored' := saveToLocalStorage stored report
  if !forceConsole then
    let check := checkServerAvailable cache now probeDuration probeOk
    if check.available then
      if postOk then ({ method := "server", success := true }, check.cache, stored')
      else ({ method := "console", success := true }, check.cache, stored')
    else ({ method := "console", success := true }, check.cache, stored')
  else ({ method := "console", success := true }, cache, stored')

/-! ## state-adapters (`src/state-adapters/index.ts`) -/

/-- The `NOISE_KEYS` from state-adapters/index.ts. -/
def NOISE_KEYS : List String := ["persist", "listeners", "_hasHydrated", "_persist", "rehydrated"]

/-- The `isMeaningfulValue` from state-adapters/index.ts (`undefined` inputs are
handled at call sites, where the `Option` is matched first). -/
def isMeaningfulValue : JSVal → Bool
  | .null => false
  | .undef => false
  | .str s => !(s == "")
  | .bool b => b
  | .arr xs => !xs.isEmpty
  | .obj es => !es.isEmpty
  | _ => true

mutual

/-- The `cleanState` from state-adapters/index.ts. A `none` result models the
`undefined` return. -/
def cleanState : JSVal → Option JSVal
  | .null => none
  | .undef => none
  | .arr xs =>
    let cleaned := cleanArr xs
    if cleaned.isEmpty then none else some (.arr cleaned)
  | .obj es =>
    let cleaned := cleanObj es
    if cleaned.isEmpty then none else some (.obj cleaned)
  | v => some v

/-- The array branch of `cleanState`: `state.map(cleanState).filter(isMeaningfulValue)`. -/
def cleanArr : List JSVal → List JSVal
  | [] => []
  | x :: xs =>
    (match cleanState x with
     | some v => if isMeaningfulValue v then [v] else []
     | none => []) ++ cleanArr xs

/-- The object branch of `cleanState`: the `for (key, value) of Object.entries`
loop dropping noise keys, `$$`/`_`-prefixed keys and non-meaningful cleaned values. -/
def cleanObj : List (String × JSVal) → List (String × JSVal)
  | [] => []
  | (k, v) :: rest =>
    (if NOISE_KEYS.contains k then []
     else if jsStartsWith k "$$" || jsStartsWith k "_" then []
     else
       match cleanState v with
       | some cv => if isMeaningfulValue cv then [(k, cv)] else []
       | none => []) ++ cleanObj rest

end

/-- The `filterState` from state-adapters/index.ts: replace excluded keys with the
redaction marker, recursing into nested plain objects (not arrays). -/
def filterState : List (String × JSVal) → List String → List (String × JSVal)
  | [], _ => []
  | (k, v) :: rest, excludeKeys =>
    (if excludeKeys.contains k then (k, JSVal.str "[REDACTED]")
     else
       match v with
       | JSVal.obj es => (k, JSVal.obj (filterState es excludeKeys))
       | _ => (k, v)) :: filterState rest excludeKeys

/-- A state adapter (`StateAdapter` in types.ts). Its two operations run
arbitrary store code, so the model lets either throw (`Except.error`);
`getState` resolves to a state object (its entries) or `null`. -/
structure StateAdapter where
  name : String
  isAvailable : Except Unit Bool
  getState : Except Unit (Option (List (String × JSVal)))

/-- One iteration of the adapter loop in `captureAppState`: the contribution
of a single adapter (`none` if it contributes nothing). Exceptions from
`isAvailable`/`getState` propagate — the source has no try/catch here. -/
def adapterContribution (adapter : StateAdapter) (excludeKeys : Option (List String)) :
    Except Unit (Option (String × JSVal)) :=
  match adapter.isAvailable with
  | .error er => .error er
  | .ok avail =>
    if avail then
      match adapter.getState with
      | .error er => .error er
      | .ok (some adapterState) =>
        let filteredState :=
          match excludeKeys with
          | some ks => filterState adapterState ks
          | none => adapterState
        (match cleanState (JSVal.obj filteredState) with
         | some cleaned =>
           if 0 < jsKeysLength cleaned then .ok (some (adapter.name, cleaned))
           else .ok none
         | none => .ok none)
      | .ok none => .ok none
    else .ok none

/-- The adapter loop of `captureAppState`, collecting contributions in order. -/
def captureAdapters : List StateAdapter → Option (List String) →
    Except Unit (List (String × JSVal))
  | [], _ => .ok []
  | adapter :: rest, excludeKeys =>
    match adapterContribution adapter excludeKeys with
    | .error er => .error er
    | .ok entry? =>
      match captureAdapters rest excludeKeys with
      | .error er => .error er
      | .ok tail =>
        match entry? with
        | some e => .ok (e :: tail)
        | none => .ok tail

/-- The `captureAppState` from state-adapters/index.ts, over an explicit adapter
list. The custom state getter is the only call wrapped in try/catch by the
source; a throwing getter (`Except.error`) is swallowed there. -/
def captureAppState (adapters : List StateAdapter)
    (customStateGetter : Option (Except Unit JSVal)) (excludeKeys : Option (List String)) :
    Except Unit (List (String × JSVal)) :=
  match captureAdapters adapters excludeKeys with
  | .error er => .error er
  | .ok state =>
    match customStateGetter with
    | none => .ok state
    | some (.error _) => .ok state
    | some (.ok custom) =>
      match cleanState custom with
      | some c => if isMeaningfulValue c then .ok (state ++ [("custom", c)]) else .ok state
      | none => .ok state

/-- A Redux store as the redux adapter sees it: `getState()` may throw. -/
structure ReduxStore where
  getState : Except Unit (List (String × JSVal))

/-- The `reduxAdapter.getState` from state-adapters/redux.ts, with the
`findReduxStore()` result passed in: `null` when no store was found, and a
`try { return store.getState() } catch { return null }` around the store call. -/
def reduxAdapterGetState (store : Option ReduxStore) : Option (List (String × JSVal)) :=
  match store with
  | none => none
  | some s =>
    match s.getState with
    | .ok st => some st
    | .error _ => none

mutual

/-- Soundness predicate for C6: every object anywhere in the value is free of
noise keys and `$$`/`_`-prefixed keys, and every value stored strictly inside
the value (object entry or array element, at any depth) is meaningful. -/
def cleanOK : JSVal → Bool
  | .arr xs => cleanOKArr xs
  | .obj es => cleanOKObj es
  | _ => true

/-- The `cleanOK` for array elements. -/
def cleanOKArr : List JSVal → Bool
  | [] => true
  | x :: xs => isMeaningfulValue x && cleanOK x && cleanOKArr xs

/-- The `cleanOK` for object entries. -/
def cleanOKObj : List (String × JSVal) → Bool
  | [] => true
  | (k, v) :: rest =>
    !NOISE_KEYS.contains k && !jsStartsWith k "$$" && !jsStartsWith k "_" &&
      isMeaningfulValue v && cleanOK v && cleanOKObj rest

end

/-! ## component-path (`src/utils/component-path.ts`) -/

/-- The `type` field of a React fiber node: `null`, a DOM tag string, or a
component type object carrying optional `displayName` / `name`. -/
inductive FiberType where
  | fnull
  | fstr (s : String)
  | fcomp (displayName : Option String) (name : Option String)

/-- The `_debugSource` of a fiber node. -/
structure DebugSource where
  fileName : String
  lineNumber : Nat
  columnNumber : Option Nat

/-- One node of the fiber `return` chain. `memoizedProps` entries whose value
is `none` model own properties whose getter throws on access;
`memoizedState` is the `useState`/hook linked list flattened to the list of
its `memoizedState` cell values. -/
structure FiberData where
  tag : Nat
  type : FiberType
  debugSource : Option DebugSource
  memoizedProps : Option (List (String × Option JSVal))
  memoizedState : List JSVal

/-- React fiber tag constants from component-path.ts. -/
def FUNCTION_COMPONENT : Nat := 0

/-- The `CLASS_COMPONENT` fiber tag. -/
def CLASS_COMPONENT : Nat := 1

/-- The `FORWARD_REF` fiber tag. -/
def FORWARD_REF : Nat := 11

/-- The `MEMO_COMPONENT` fiber tag. -/
def MEMO_COMPONENT : Nat := 14

/-- The `SIMPLE_MEMO_COMPONENT` fiber tag. -/
def SIMPLE_MEMO_COMPONENT : Nat := 15

/-- The `COMPONENT_TAGS` from component-path.ts. -/
def COMPONENT_TAGS : List Nat :=
  [FUNCTION_COMPONENT, CLASS_COMPONENT, FORWARD_REF, MEMO_COMPONENT, SIMPLE_MEMO_COMPONENT]

/-- The `EXCLUDED_PROPS` from component-path.ts. -/
def EXCLUDED_PROPS : List String :=
  ["children", "key", "ref", "__self", "__source", "password", "token", "apiKey",
   "secret", "credentials", "params", "searchParams"]

/-- The `isFrameworkComponent` from component-path.ts: each regex of
`FRAMEWORK_COMPONENT_PATTERNS` is translated to the exact string test it
performs (all are anchored exact matches except `__next_.*__` and the
unanchored `/Context$/`). -/
def isFrameworkComponent (name : String) : Bool :=
  name == "Root" || name == "ServerRoot" ||
  name == "AppRouter" ||
  name == "Router" ||
  name == "HotReload" ||
  name == "DevRootHTTPAccessFallbackBoundary" ||
  (jsStartsWith name "__next_" && jsEndsWith name "__" && 9 ≤ name.length) ||
  name == "OuterLayoutRouter" ||
  name == "InnerLayoutRouter" ||
  name == "SegmentStateProvider" ||
  name == "SegmentViewNode" ||
  name == "RenderFromTemplateContext" ||
  name == "ScrollAndFocusHandler" ||
  name == "InnerScrollAndFocusHandler" ||
  name == "HTTPAccessFallbackBoundary" ||
  name == "HTTPAccessFallbackErrorBoundary" ||
  name == "RedirectBoundary" ||
  name == "RedirectErrorBoundary" ||
  name == "LoadingBoundary" ||
  name == "ClientPageRoot" ||
  name == "AppDevOverlayErrorBoundary" ||
  name == "Suspense" ||
  name == "Fragment" ||
  name == "StrictMode" ||
  name == "Profiler" ||
  name == "Provider" ||
  name == "QueryClientProvider" ||
  name == "ThemeProvider" ||
  name == "ErrorBoundary" ||
  name == "RootErrorBoundary" || name == "ErrorBoundaryHandler" || name == "RootErrorBoundaryHandler" ||
  jsEndsWith name "Context"

/-- The `getComponentName` from component-path.ts (`displayName` wins over `name`;
JS truthiness makes the empty string count as absent). -/
def getComponentName (t : FiberType) : Option String :=
  match t with
  | .fnull => none
  | .fstr _ => none
  | .fcomp dn n =>
    match dn with
    | some s =>
      if s ≠ "" then some s
      else
        match n with
        | some s2 => if s2 ≠ "" then some s2 else none
        | none => none
    | none =>
      match n with
      | some s2 => if s2 ≠ "" then some s2 else none
      | none => none

/-- The `isComponentFiber` from component-path.ts. -/
def isComponentFiber (f : FiberData) : Bool := COMPONENT_TAGS.contains f.tag

/-- The `webpack://[^/]*/` prefix strip in `extractSourceLocation`. -/
def stripWebpackPart (s : String) : String :=
  if jsStartsWith s "webpack://" then
    let rest := s.toList.drop 10
    match rest.dropWhile (fun c => c ≠ '/') with
    | '/' :: tl => String.mk tl
    | _ => s
  else s

/-- The `/_next/` prefix strip in `extractSourceLocation`. -/
def stripNextPart (s : String) : String :=
  if jsStartsWith s "/_next/" then String.mk (s.toList.drop 7) else s

/-- The `./` prefix strip in `extractSourceLocation`. -/
def stripDotSlashPart (s : String) : String :=
  if jsStartsWith s "./" then String.mk (s.toList.drop 2) else s

/-- The `SourceLocation` of a component path item. -/
structure SourceLocation where
  fileName : String
  lineNumber : Nat
  columnNumber : Option Nat

/-- The `extractSourceLocation` from component-path.ts. -/
def extractSourceLocation (f : FiberData) : Option SourceLocation :=
  match f.debugSource with
  | some ds =>
    some { fileName := stripDotSlashPart (stripNextPart (stripWebpackPart ds.fileName)),
           lineNumber := ds.lineNumber, columnNumber := ds.columnNumber }
  | none => none

mutual

/-- Whether `JSON.stringify` throws on the value (it throws exactly on
BigInt values, cycles being unrepresentable in this tree model). -/
def containsBigint : JSVal → Bool
  | .bigintVal => true
  | .arr xs => containsBigintArr xs
  | .obj es => containsBigintObj es
  | _ => false

/-- The `containsBigint` over array elements. -/
def containsBigintArr : List JSVal → Bool
  | [] => false
  | x :: xs => containsBigint x || containsBigintArr xs

/-- The `containsBigint` over object entry values. -/
def containsBigintObj : List (String × JSVal) → Bool
  | [] => false
  | (_, v) :: rest => containsBigint v || containsBigintObj rest

end

/-- JSON string escaping for `jsonStr`. -/
def jsonEscape (s : String) : String :=
  String.mk (s.toList.flatMap (fun c =>
    if c = '"' then ['\\', '"']
    else if c = '\\' then ['\\', '\\']
    else if c = '\n' then ['\\', 'n']
    else [c]))

mutual

/-- The `JSON.stringify(v)` on values it does not throw on (`func`/`undef` become
`undefined` at top level, are dropped in objects and become `null` in arrays). -/
def jsonStr : JSVal → String
  | .null => "null"
  | .undef => "undefined"
  | .bool b => if b then "true" else "false"
  | .num n => toString n
  | .str s => "\"" ++ jsonEscape s ++ "\""
  | .arr xs => "[" ++ String.intercalate "," (jsonStrArr xs) ++ "]"
  | .obj es => "\x7b" ++ String.intercalate "," (jsonStrObj es) ++ "\x7d"
  | .func => "undefined"
  | .bigintVal => ""

/-- The `jsonStr` of array elements (`undefined`/functions serialize as `null`). -/
def jsonStrArr : List JSVal → List String
  | [] => []
  | x :: xs =>
    (match x with
     | .undef => "null"
     | .func => "null"
     | v => jsonStr v) :: jsonStrArr xs

/-- The `jsonStr` of object entries (`undefined`/function values are dropped). -/
def jsonStrObj : List (String × JSVal) → List String
  | [] => []
  | (k, v) :: rest =>
    (match v with
     | .undef => []
     | .func => []
     | v' => ["\"" ++ jsonEscape k ++ "\":" ++ jsonStr v']) ++ jsonStrObj rest

end

/-- The `isMeaningfulStateValue` from component-path.ts. -/
def isMeaningfulStateValue (v : JSVal) : Bool :=
  match v with
  | .null => false
  | .undef => false
  | .obj es =>
    !((es.any (fun e => e.1 == "destroy")) || (es.any (fun e => e.1 == "create"))) &&
    !((es.any (fun e => e.1 == "current")) && es.length == 1) &&
    !((es.any (fun e => e.1 == "persist")) && es.length == 1)
  | .arr xs => !(xs.length == 2 && (match xs.head? with | some .null => true | _ => false))
  | _ => true

/-- The `isReactQueryInternal` from component-path.ts. -/
def isReactQueryInternal (v : JSVal) : Bool :=
  (jsHasKey v "listeners" && jsHasKey v "options") ||
  (jsHasKey v "_defaulted" && jsKeysLength v ≤ 2)

/-- The `obj[k] === true` as pattern match. -/
def jsGetIsTrue (v : JSVal) (k : String) : Bool :=
  match jsGet v k with
  | some (.bool true) => true
  | _ => false

/-- The `obj[k] === s` (string comparison) as pattern match. -/
def jsGetIsStr (v : JSVal) (k s : String) : Bool :=
  match jsGet v k with
  | some (.str t) => t == s
  | _ => false

/-- The `isIdleMutationState` from component-path.ts. -/
def isIdleMutationState (v : JSVal) : Bool :=
  jsHasKey v "isIdle" && jsHasKey v "submittedAt" &&
  jsGetIsTrue v "isIdle" && jsGetIsStr v "status" "idle"

/-- The per-value "null, undefined, or empty object" test inside `isEmptyObject`. -/
def emptyish : JSVal → Bool
  | .null => true
  | .undef => true
  | .obj [] => true
  | .arr [] => true
  | _ => false

/-- The `isEmptyObject` from component-path.ts (applied to any `typeof 'object'`
value, so arrays are inspected through their element values). -/
def isEmptyObject (v : JSVal) : Bool :=
  match v with
  | .obj es => es.all (fun e => emptyish e.2)
  | .arr xs => xs.all (fun x => emptyish x)
  | _ => false

/-- The `isPromise` from component-path.ts (`value.then` is callable). -/
def isPromise (v : JSVal) : Bool :=
  match v with
  | .obj es =>
    (match (es.find? (fun e => e.1 == "then")).map (·.2) with
     | some JSVal.func => true
     | _ => false)
  | _ => false

/-- The `cleanReactQueryState` from component-path.ts. `Except.error` models the
two ways the body can throw: `JSON.stringify` on a BigInt-containing `data`,
and `.length` on the `undefined` that `JSON.stringify` returns for a function
`data`. A `none` result models the `null` return. -/
def cleanReactQueryState (v : JSVal) : Except Unit (Option (List (String × JSVal))) := do
  if isReactQueryInternal v then return none
  if !(jsHasKey v "status") && !(jsHasKey v "fetchStatus") then return none
  let cleaned₀ : List (String × JSVal) := [("_type", .str "ReactQuery")]
  let cleaned₁ :=
    match jsGet v "status" with
    | some st => cleaned₀ ++ [("status", st)]
    | none => cleaned₀
  let cleaned₂ ←
    (if jsHasKey v "data" then
      match jsGet v "data" with
      | some .null => pure cleaned₁
      | some .undef => pure cleaned₁
      | none => pure cleaned₁
      | some d =>
        if d matches .func then .error ()
        else if containsBigint d then .error ()
        else if 1000 < (jsonStr d).length then
          pure (cleaned₁ ++ [("data", .str "[Large data object - truncated]")])
        else pure (cleaned₁ ++ [("data", d)])
    else pure cleaned₁)
  let cleaned₃ :=
    match jsGet v "error" with
    | some e => if jsTruthy e then cleaned₂ ++ [("error", e)] else cleaned₂
    | none => cleaned₂
  let boolFields := ["isLoading", "isError", "isPending", "isFetching"]
  let cleaned₄ := cleaned₃ ++ (boolFields.filterMap (fun f =>
    if jsGetIsTrue v f then some (f, JSVal.bool true) else none))
  let hasUsefulData := cleaned₄.any (fun e => e.1 == "data") ||
    cleaned₄.any (fun e => e.1 == "error") ||
    boolFields.any (fun f => jsGetIsTrue (.obj cleaned₄) f)
  if hasUsefulData || !jsGetIsStr (.obj cleaned₄) "status" "idle" then
    return some cleaned₄
  else
    return none

/-- The body of `extractProps`' key loop for one `(key, value)` pair; `none`
means the pair contributes nothing. -/
def extractPropEntry (key : String) (cell : Option JSVal) : Option (String × JSVal) :=
  if EXCLUDED_PROPS.contains key then none
  else
    match cell with
    | none => none
    | some value =>
      if isPromise value then none
      else if value matches .func then
        (if jsStartsWith key "on" then none else some (key, .str "[Function]"))
      else if jsTruthy value && jsHasKey value "$$typeof" then none
      else
        match value with
        | .str s => if 100 < s.length then some (key, .str (jsTake s 100 ++ "...")) else
            (if containsBigint (JSVal.str s) then none else some (key, .str s))
        | .arr xs =>
          if 10 < xs.length then some (key, .str ("[Array(" ++ toString xs.length ++ ")]"))
          else if xs.isEmpty then none
          else if containsBigint (.arr xs) then none else some (key, .arr xs)
        | .obj es =>
          if es.isEmpty then none
          else if containsBigint (.obj es) then none else some (key, .obj es)
        | v => if containsBigint v then none else some (key, v)

/-- The `extractProps` from component-path.ts. -/
def extractProps (f : FiberData) : Option (List (String × JSVal)) :=
  match f.memoizedProps with
  | none => none
  | some entries =>
    let props := entries.filterMap (fun e => extractPropEntry e.1 e.2)
    if props.isEmpty then none else some props

/-- The body of `extractLocalState`'s loop for one hook-state cell value;
`none` means the cell contributes nothing (including the case in which the
cell body throws and the `catch` swallows it). -/
def extractStateCell (value : JSVal) : Option JSVal :=
  if !isMeaningfulStateValue value then none
  else
    match value with
    | .func => none
    | .obj es =>
      if isReactQueryInternal (.obj es) then none
      else if isIdleMutationState (.obj es) then none
      else if isEmptyObject (.obj es) then none
      else
        match cleanReactQueryState (.obj es) with
        | .error _ => none
        | .ok (some cleaned) => some (.obj cleaned)
        | .ok none =>
          if jsHasKey (.obj es) "$$typeof" then none
          else if containsBigint (.obj es) then none
          else if (jsonStr (.obj es)).length < 500 then some (.obj es)
          else some (.str "[Large object]")
    | .arr xs =>
      if isReactQueryInternal (.arr xs) then none
      else if isIdleMutationState (.arr xs) then none
      else if isEmptyObject (.arr xs) then none
      else
        match cleanReactQueryState (.arr xs) with
        | .error _ => none
        | .ok (some cleaned) => some (.obj cleaned)
        | .ok none =>
          if containsBigint (.arr xs) then none
          else if (jsonStr (.arr xs)).length < 500 then some (.arr xs)
          else some (.str "[Large object]")
    | v => some v

/-- The final `meaningfulStates` filter of `extractLocalState`. -/
def keepMeaningfulState (v : JSVal) : Bool :=
  match v with
  | .obj _ => true
  | .arr _ => true
  | .str s => 0 < s.length
  | .num _ => true
  | _ => false

/-- The `extractLocalState` from component-path.ts: only function components, at
most 10 hook cells, per-cell extraction, then the meaningful-state filter. -/
def extractLocalState (f : FiberData) : Option (List JSVal) :=
  if f.tag ≠ FUNCTION_COMPONENT then none
  else
    let states := (f.memoizedState.take 10).filterMap extractStateCell
    let meaningfulStates := states.filter keepMeaningfulState
    if meaningfulStates.isEmpty then none else some meaningfulStates

/-- A component path item (`ComponentPathItem` in types.ts). -/
structure ComponentPathItem where
  name : String
  source : String
  sourceLocation : Option SourceLocation := none
  props : Option (List (String × JSVal)) := none
  state : Option (List JSVal) := none

/-- The item built for one component fiber inside `extractComponentPath`. -/
def mkPathItem (f : FiberData) (name : String) : ComponentPathItem :=
  { name := name,
    source :=
      (match f.type with
       | .fcomp (some dn) _ => if dn ≠ "" then "displayName" else "fiber"
       | _ => "fiber"),
    sourceLocation := extractSourceLocation f,
    props := if !isFrameworkComponent name then extractProps f else none,
    state := if !isFrameworkComponent name then extractLocalState f else none }

/-- The element as `extractComponentPath` sees it: the fiber `return` chain
reached through the `__reactFiber$…` key (`none` when no such key exists),
and the `data-component` attribute of the element and each of its DOM
ancestors, innermost first (`none` = attribute absent). -/
structure PCElement where
  fiber : Option (List FiberData)
  ancestorAttrs : List (Option String)

/-- The `getFiberFromElement` from component-path.ts. -/
def getFiberFromElement (e : PCElement) : Option (List FiberData) := e.fiber

/-- The `while (fiber)` loop of `extractComponentPath`: walk the `return`
chain, `unshift`ing an item for each not-yet-seen component fiber. Returns
the seen-name set and the root-first item list. -/
def walkFibers : List FiberData → List String → List ComponentPathItem →
    List String × List ComponentPathItem
  | [], seen, acc => (seen, acc)
  | f :: rest, seen, acc =>
    if isComponentFiber f then
      match getComponentName f.type with
      | some name =>
        if seen.contains name then walkFibers rest seen acc
        else walkFibers rest (name :: seen) (mkPathItem f name :: acc)
      | none => walkFibers rest seen acc
    else walkFibers rest seen acc

/-- The `data-component` ancestor scan of `extractComponentPath`, appending
attribute items for not-yet-seen names. -/
def addAttrComponents : List (Option String) → List String → List ComponentPathItem →
    List ComponentPathItem
  | [], _, acc => acc
  | oattr :: rest, seen, acc =>
    match oattr with
    | some a =>
      if a ≠ "" && !seen.contains a then
        addAttrComponents rest (a :: seen) (acc ++ [{ name := a, source := "attribute" }])
      else addAttrComponents rest seen acc
    | none => addAttrComponents rest seen acc

/-- The `allComponents` list of `extractComponentPath` just before the final
noise filter. -/
def allComponents (e : PCElement) : List ComponentPathItem :=
  let chain := (getFiberFromElement e).getD []
  let walked := walkFibers chain [] []
  addAttrComponents e.ancestorAttrs walked.1 walked.2

/-- The `extractComponentPath` from component-path.ts: filter framework noise,
falling back to the last five raw entries when the filter removes everything. -/
def extractComponentPath (e : PCElement) : List ComponentPathItem :=
  let all := allComponents e
  let appComponents := all.filter (fun c => !isFrameworkComponent c.name)
  if appComponents.isEmpty && !all.isEmpty then all.drop (all.length - 5)
  else appComponents

/-! ## dom-utils (`src/utils/dom-utils.ts`) -/

/-- The facets of a DOM element read by several sub-extractors.
`classNameIsString = false` models an `SVGAnimatedString` class name. -/
structure ElementCore where
  tagName : String
  attributes : List (String × String)
  classNameIsString : Bool := true
  textContent : Option String := none
  innerHTML : String := ""
  childCount : Nat := 0

/-- The `element.getAttribute(name)`. -/
def coreGetAttribute (c : ElementCore) (name : String) : Option String :=
  (c.attributes.find? (fun a => a.1 == name)).map (·.2)

/-- The `element.id` (empty string when the attribute is absent). -/
def coreId (c : ElementCore) : String := (coreGetAttribute c "id").getD ""

/-- The `element.className` when it is a string (`none` models the non-string
`SVGAnimatedString` case the source tests with `typeof`). -/
def coreClassName (c : ElementCore) : Option String :=
  if c.classNameIsString then some ((coreGetAttribute c "class").getD "") else none

/-- JS truthiness of a nullable attribute value (null and '' are falsy). -/
def attrTruthy (o : Option String) : Option String :=
  match o with
  | some s => if s = "" then none else some s
  | none => none

/-- The `element.parentElement` as `generateUniqueSelector` uses it: identity
facets plus the tag names of its children and the position of the inspected
element among them. -/
structure ParentData where
  core : ElementCore
  childrenTags : List String
  elemIndex : Nat

/-- A DOM rectangle (coordinates modelled at integer precision; no claim
depends on float rounding). -/
structure JsRect where
  x : Int
  y : Int
  width : Int
  height : Int

/-- A DOM element as `extractElementInfo` sees it. `rect` and `computed`
model `getBoundingClientRect()` and `getComputedStyle(element)`, the two
sub-extraction calls that a detached / foreign-namespace / proxy-backed
element can make throw; `contextAncestors` is the `parentElement` chain with
a flag marking `document.body`; siblings carry an `instanceof HTMLElement`
flag. -/
structure ElementData where
  core : ElementCore
  rect : Except Unit JsRect
  computed : Except Unit (List (String × String))
  parent : Option ParentData := none
  contextAncestors : List (ElementCore × Bool) := []
  prevSibling : Option (ElementCore × Bool) := none
  nextSibling : Option (ElementCore × Bool) := none

/-- The `DEFAULT_STYLES` from dom-utils.ts. -/
def DEFAULT_STYLES : List (String × String) :=
  [("display", "block"), ("position", "static"), ("visibility", "visible"),
   ("opacity", "1"), ("cursor", "auto"), ("pointerEvents", "auto"),
   ("overflow", "visible"), ("zIndex", "auto")]

/-- The `STYLE_PROPERTIES` from dom-utils.ts. -/
def STYLE_PROPERTIES : List String :=
  ["display", "position", "visibility", "opacity", "width", "height", "padding",
   "margin", "border", "backgroundColor", "color", "fontSize", "fontWeight",
   "cursor", "pointerEvents", "overflow", "zIndex"]

/-- The camelCase → kebab-case conversion in `extractComputedStyles`. -/
def kebabCase (s : String) : String :=
  String.mk (s.toList.flatMap (fun c => if c.isUpper then ['-', c.toLower] else [c]))

/-- The `extractComputedStyles` from dom-utils.ts: iterate `STYLE_PROPERTIES`,
read each resolved value, drop defaults and the hand-coded exclusions. -/
def extractComputedStyles (e : ElementData) : Except Unit (List (String × String)) :=
  match e.computed with
  | .error er => .error er
  | .ok computed =>
    .ok (STYLE_PROPERTIES.filterMap (fun prop =>
      let kebabProp := kebabCase prop
      let value := ((computed.find? (fun p => p.1 == kebabProp)).map (·.2)).getD ""
      let defaultMatches :=
        match (DEFAULT_STYLES.find? (fun p => p.1 == prop)).map (·.2) with
        | some d => value == d
        | none => false
      if defaultMatches then none
      else if prop == "border" && jsIncludes value "none" then none
      else if prop == "backgroundColor" && (value == "transparent" || value == "rgba(0, 0, 0, 0)") then none
      else if (prop == "padding" || prop == "margin") && value == "0px" then none
      else some (prop, value)))

/-- The Tailwind-like utility-class prefixes excluded by
`generateUniqueSelector` (the `^(flex|grid|…)` regex as a prefix test). -/
def utilityClassPrefixes : List String :=
  ["flex", "grid", "block", "inline", "hidden", "p-", "m-", "w-", "h-", "text-",
   "bg-", "border-", "rounded", "items-", "justify-", "gap-", "space-"]

/-- The class filter of `generateUniqueSelector`. -/
def meaningfulClass (c : String) : Bool :=
  !(c == "") && !(utilityClassPrefixes.any (fun p => jsStartsWith c p)) &&
  !(c.length < 3) && !jsStartsWith c "_"

/-- The `generateUniqueSelector` from dom-utils.ts. -/
def generateUniqueSelector (e : ElementData) : String :=
  match attrTruthy (coreGetAttribute e.core "data-testid") with
  | some testId => "[data-testid=\"" ++ testId ++ "\"]"
  | none =>
    if coreId e.core ≠ "" then "#" ++ coreId e.core
    else
      match attrTruthy (coreGetAttribute e.core "data-component") with
      | some componentAttr => "[data-component=\"" ++ componentAttr ++ "\"]"
      | none =>
        let tag := jsToLower e.core.tagName
        let selector₀ := tag
        let selector₁ :=
          match coreClassName e.core with
          | some cn =>
            if cn ≠ "" then
              let meaningfulClasses := ((jsSplitOnSpace cn).filter meaningfulClass).take 2
              if !meaningfulClasses.isEmpty then
                selector₀ ++ "." ++ String.intercalate "." meaningfulClasses
              else selector₀
            else selector₀
          | none => selector₀
        match e.parent with
        | some parent =>
          let siblingsCount := (parent.childrenTags.filter (fun t => t == e.core.tagName)).length
          let selector₂ :=
            if 1 < siblingsCount then
              let index := ((parent.childrenTags.take parent.elemIndex).filter
                (fun t => t == e.core.tagName)).length + 1
              selector₁ ++ ":nth-of-type(" ++ toString index ++ ")"
            else selector₁
          let parentHint :=
            if coreId parent.core ≠ "" then "#" ++ coreId parent.core ++ " > "
            else
              match attrTruthy (coreGetAttribute parent.core "data-testid") with
              | some ptid => "[data-testid=\"" ++ ptid ++ "\"] > "
              | none => ""
          if parentHint ≠ "" then parentHint ++ selector₂ else selector₂
        | none => selector₁

/-- The `getElementSummary` from dom-utils.ts (for previous/next siblings). -/
def getElementSummary (s : Option (ElementCore × Bool)) : Option String :=
  match s with
  | none => none
  | some (c, isHTMLElement) =>
    if !isHTMLElement then none
    else
      let tag := jsToLower c.tagName
      let id := if coreId c ≠ "" then "#" ++ coreId c else ""
      let testIdStr :=
        match attrTruthy (coreGetAttribute c "data-testid") with
        | some t => "[data-testid=\"" ++ t ++ "\"]"
        | none => ""
      let classStr :=
        if id == "" && testIdStr == "" then
          match coreClassName c with
          | some cn =>
            if cn ≠ "" then
              match (jsSplitOnSpace cn).find? (fun cl =>
                !(cl == "") && 2 < cl.length && !jsStartsWith cl "_") with
              | some firstClass => "." ++ firstClass
              | none => ""
            else ""
          | none => ""
        else ""
      let text := jsTake (jsTrim ((c.textContent).getD "")) 20
      some ("<" ++ tag ++ id ++ testIdStr ++ classStr ++ ">" ++
        (if text ≠ "" then
          " \"" ++ text ++ (if 20 ≤ text.length then "..." else "") ++ "\""
         else ""))

/-- The `getHtmlPreview` from dom-utils.ts. -/
def getHtmlPreview (c : ElementCore) : String :=
  let tag := jsToLower c.tagName
  let id := if coreId c ≠ "" then " id=\"" ++ coreId c ++ "\"" else ""
  let testIdAttr :=
    match attrTruthy (coreGetAttribute c "data-testid") with
    | some t => " data-testid=\"" ++ t ++ "\""
    | none => ""
  let classAttr :=
    match coreClassName c with
    | some cn =>
      if cn ≠ "" then
        let pieces := (jsSplitOnSpace cn).filter (fun p => p ≠ "")
        let classes := String.intercalate " " (pieces.take 3)
        if classes ≠ "" then
          " class=\"" ++ classes ++
            (if 3 < (jsSplitOnSpace cn).length then " ..." else "") ++ "\""
        else ""
      else ""
    | none => ""
  "<" ++ tag ++ id ++ testIdAttr ++ classAttr ++ ">"

/-- One entry of the `parents` list in `DOMContext`. -/
structure DOMParentEntry where
  tagName : String
  id : String
  className : String
  htmlPreview : String

/-- The `DOMContext` record of dom-utils.ts. -/
structure DOMContext where
  parents : List DOMParentEntry
  previousSibling : Option String
  nextSibling : Option String
  childCount : Nat
  innerHTML : String

/-- The `while (parent && parent !== document.body && depth < 3)` walk of
`extractDOMContext`. -/
def collectParents : List (ElementCore × Bool) → Nat → List DOMParentEntry
  | [], _ => []
  | (c, isBody) :: rest, depth =>
    if isBody || 3 ≤ depth then []
    else
      { tagName := c.tagName, id := coreId c,
        className :=
          (match coreClassName c with
           | some cn => String.intercalate " " ((jsSplitOnSpace cn).take 3)
           | none => ""),
        htmlPreview := getHtmlPreview c } :: collectParents rest (depth + 1)

/-- The `extractDOMContext` from dom-utils.ts. -/
def extractDOMContext (e : ElementData) : DOMContext :=
  let parents := collectParents e.contextAncestors 0
  let previousSibling := getElementSummary e.prevSibling
  let nextSibling := getElementSummary e.nextSibling
  let childCount := e.core.childCount
  let trimmed := jsTrim e.core.innerHTML
  let innerHTML := if 300 < trimmed.length then jsTake trimmed 300 ++ "..." else trimmed
  { parents := parents, previousSibling := previousSibling, nextSibling := nextSibling,
    childCount := childCount, innerHTML := innerHTML }

/-- The accessibility attribute subset of `ElementInfo`. -/
structure Accessibility where
  role : Option String
  ariaLabel : Option String
  ariaDescribedBy : Option String
  ariaDisabled : Option String
  tabIndex : Option String

/-- The `extractAccessibility` from dom-utils.ts. -/
def extractAccessibility (e : ElementData) : Accessibility :=
  { role := coreGetAttribute e.core "role",
    ariaLabel := coreGetAttribute e.core "aria-label",
    ariaDescribedBy := coreGetAttribute e.core "aria-describedby",
    ariaDisabled := coreGetAttribute e.core "aria-disabled",
    tabIndex := coreGetAttribute e.core "tabindex" }

/-- The rounded bounding rectangle of `ElementInfo`. -/
structure BoundingRect where
  x : Int
  y : Int
  width : Int
  height : Int

/-- The `ElementInfo` from types.ts. -/
structure ElementInfo where
  tagName : String
  id : String
  className : String
  textContent : String
  attributes : List (String × String)
  boundingRect : BoundingRect
  selector : String
  computedStyles : List (String × String)
  domContext : DOMContext
  accessibility : Accessibility

/-- The `extractElementInfo` from dom-utils.ts. The source contains no
try/catch: a throwing `getBoundingClientRect` or `getComputedStyle`
propagates (`Except.error`). -/
def extractElementInfo (e : ElementData) : Except Unit ElementInfo :=
  match e.rect with
  | .error er => .error er
  | .ok rect =>
    let attributes := e.core.attributes.filterMap (fun attr =>
      if ["id", "class", "style"].contains attr.1 then none
      else if 200 < attr.2.length then some (attr.1, jsTake attr.2 200 ++ "...")
      else some (attr.1, attr.2))
    let textContent₀ := jsTrim ((e.core.textContent).getD "")
    let textContent :=
      if 150 < textContent₀.length then jsTake textContent₀ 150 ++ "..." else textContent₀
    match extractComputedStyles e with
    | .error er => .error er
    | .ok computedStyles =>
      .ok
        { tagName := e.core.tagName,
          id := coreId e.core,
          className := (coreClassName e.core).getD "",
          textContent := textContent,
          attributes := attributes,
          boundingRect := { x := rect.x, y := rect.y, width := rect.width, height := rect.height },
          selector := generateUniqueSelector e,
          computedStyles := computedStyles,
          domContext := extractDOMContext e,
          accessibility := extractAccessibility e }

/-! ## Concrete inputs used by witnesses and counterexamples -/

/-- The console entry contributed by one buffered call (level, args, time). -/
def consoleCallEntry (c : LogLevel × List ConsoleArg × Nat) : ConsoleEntry :=
  { level := c.1, message := jsTake (joinedMessage c.2.1) 1000, timestamp := c.2.2 }

/-- The buffer reached by folding `addToBuffer` over a call sequence. -/
def bufferAfter (calls : List (LogLevel × List ConsoleArg × Nat)) : List ConsoleEntry :=
  calls.foldl (fun b c => addToBuffer b c.1 c.2.1 c.2.2) []

/-- Fifty-one plain `console.error("x")` calls (C4 witness input). -/
def fiftyOneCalls : List (LogLevel × List ConsoleArg × Nat) :=
  (List.range 51).map (fun i => (LogLevel.error, [ConsoleArg.prim "x"], i))

/-- An element whose `getBoundingClientRect` throws (C2 counterexample input). -/
def proxyElement : ElementData :=
  { core := { tagName := "DIV", attributes := [] }, rect := .error (), computed := .ok [] }

/-- A well-behaved detached button element (C2/C7 witness input). -/
def plainButton : ElementData :=
  { core := { tagName := "BUTTON", attributes := [("id", "save-btn"), ("type", "submit")],
              textContent := some "Save", innerHTML := "Save" },
    rect := .ok { x := 0, y := 0, width := 10, height := 10 },
    computed := .ok [("display", "flex")] }

/-- An element with no fiber and one `data-component` ancestor (C3 witness input). -/
def attrOnlyElement : PCElement :=
  { fiber := none, ancestorAttrs := [some "MyWidget", none] }

/-- A fiber node for a function component with the given `name`. -/
def plainFiber (name : String) : FiberData :=
  { tag := FUNCTION_COMPONENT, type := .fcomp none (some name), debugSource := none,
    memoizedProps := none, memoizedState := [] }

/-- An element whose fiber chain holds only framework-noise components
(C9 witness input). -/
def noiseOnlyElement : PCElement :=
  { fiber := some [plainFiber "Router", plainFiber "Provider"], ancestorAttrs := [none] }

/-- An adapter whose `isAvailable` throws (C8 counterexample input). -/
def throwingAdapter : StateAdapter :=
  { name := "bad", isAvailable := .error (), getState := .ok none }

/-- A well-behaved adapter holding one state entry (C8 inputs). -/
def healthyAdapter : StateAdapter :=
  { name := "good", isAvailable := .ok true,
    getState := .ok (some [("value", JSVal.num 1)]) }

/-- A Redux store whose `getState()` throws (C8 witness input). -/
def brokenStore : ReduxStore := { getState := .error () }

/-- A sample adapter state with a noise key, an internal-prefix key and an
empty-object value (C6 witness input). -/
def sampleState : JSVal :=
  .obj [("a", .num 1), ("_internal", .num 2), ("persist", .str "x"), ("empty", .obj [])]

/-! ## Helper lemmas -/

theorem trimBuffer_eq_drop (b : List ConsoleEntry) :
    trimBuffer b = b.drop (b.length - MAX_BUFFER_SIZE) := by
  induction b using trimBuffer.induct with
  | case1 b hlt ih =>
    rw [trimBuffer, if_pos hlt, ih]
    cases b with
    | nil => simp [MAX_BUFFER_SIZE] at hlt
    | cons x xs =>
      simp only [List.tail_cons, List.length_cons]
      rw [show xs.length + 1 - MAX_BUFFER_SIZE = (xs.length - MAX_BUFFER_SIZE) + 1 by
        simp only [MAX_BUFFER_SIZE, List.length_cons] at hlt ⊢; omega]
      simp
  | case2 b hlt =>
    rw [trimBuffer, if_neg hlt]
    have : b.length - MAX_BUFFER_SIZE = 0 := by omega
    simp [this]

theorem foldl_trimPush (es : List ConsoleEntry) (b : List ConsoleEntry)
    (hb : b.length ≤ MAX_BUFFER_SIZE) :
    es.foldl (fun acc e => trimBuffer (acc ++ [e])) b =
      (b ++ es).drop (b.length + es.length - MAX_BUFFER_SIZE) := by
  induction es generalizing b with
  | nil =>
    simp only [List.foldl_nil, List.append_nil, List.length_nil, Nat.add_zero]
    rw [show b.length - MAX_BUFFER_SIZE = 0 by omega, List.drop_zero]
  | cons e es ih =>
    have hstep : trimBuffer (b ++ [e]) = (b ++ [e]).drop ((b.length + 1) - MAX_BUFFER_SIZE) := by
      rw [trimBuffer_eq_drop]; simp
    have hlen : (trimBuffer (b ++ [e])).length ≤ MAX_BUFFER_SIZE := by
      rw [hstep, List.length_drop]
      simp only [List.length_append, List.length_cons, List.length_nil]
      omega
    have hd : (b.length + 1) - MAX_BUFFER_SIZE ≤ (b ++ [e]).length := by
      simp only [List.length_append, List.length_cons, List.length_nil]
      omega
    rw [List.foldl_cons, ih _ hlen, hstep, List.length_drop,
      ← List.drop_append_of_le_length hd, List.drop_drop,
      show ((b ++ [e]) ++ es) = b ++ e :: es by simp]
    congr 1
    simp only [List.length_append, List.length_cons, List.length_nil]
    omega

theorem addToBuffer_not_tagged (b : List ConsoleEntry) (level : LogLevel)
    (args : List ConsoleArg) (now : Nat)
    (h : jsIncludes (joinedMessage args) "[ContextReporter]" = false) :
    addToBuffer b level args now =
      trimBuffer (b ++ [⟨level, jsTake (joinedMessage args) 1000, now⟩]) := by
  rw [addToBuffer]
  simp only [h, Bool.false_eq_true, if_false]

theorem foldl_addToBuffer_eq (calls : List (LogLevel × List ConsoleArg × Nat))
    (b : List ConsoleEntry)
    (h : ∀ c ∈ calls, jsIncludes (joinedMessage c.2.1) "[ContextReporter]" = false) :
    calls.foldl (fun b c => addToBuffer b c.1 c.2.1 c.2.2) b =
      (calls.map consoleCallEntry).foldl (fun acc e => trimBuffer (acc ++ [e])) b := by
  induction calls generalizing b with
  | nil => rfl
  | cons c cs ih =>
    simp only [List.foldl_cons, List.map_cons]
    rw [addToBuffer_not_tagged _ _ _ _ (h c (by simp))]
    exact ih _ (fun c hc => h c (by simp [hc]))

theorem bufferAfter_eq_foldl (calls : List (LogLevel × List ConsoleArg × Nat))
    (h : ∀ c ∈ calls, jsIncludes (joinedMessage c.2.1) "[ContextReporter]" = false) :
    bufferAfter calls =
      (calls.map consoleCallEntry).foldl (fun acc e => trimBuffer (acc ++ [e])) [] :=
  foldl_addToBuffer_eq calls [] h

/-! ## Claim theorems -/

/-- C1: when the remote endpoint is unreachable (the availability probe and
the report POST both fail — timeout, network error or non-OK response),
`logContextReport` falls back to console delivery and returns
`{method: "console", success: true}`; and no matter the transport flags, the
report is prepended to the capped (≤ 20) local history. -/
theorem logContextReport_console_fallback (report : ContextReport) (forceConsole : Bool)
    (cache : ServerCache) (now probeDuration : Nat) (probeOk postOk : Bool)
    (stored : List ContextReport)
    (hprobe : probeOk = false) (hpost : postOk = false) :
    (logContextReport report forceConsole cache now probeDuration probeOk postOk stored).1 =
      (⟨"console", true⟩ : DeliveryResult) ∧
    (logContextReport report forceConsole cache now probeDuration probeOk postOk stored).2.2.head? =
      some report ∧
    (logContextReport report forceConsole cache now probeDuration probeOk postOk stored).2.2.length ≤ 20 := by
  subst hprobe hpost
  have hsave : (saveToLocalStorage stored report).head? = some report := by
    rw [saveToLocalStorage, show (20 : Nat) = 19 + 1 from rfl, List.take_succ_cons]
    rfl
  have hlen : (saveToLocalStorage stored report).length ≤ 20 := by
    rw [saveToLocalStorage]
    rw [List.length_take]
    exact Nat.min_le_left _ _
  cases forceConsole with
  | true => exact ⟨rfl, hsave, hlen⟩
  | false =>
    by_cases havail : (checkServerAvailable cache now probeDuration false).available
    · simp only [logContextReport, havail, Bool.not_false, if_true, Bool.false_eq_true, if_false]
      exact ⟨trivial, hsave, hlen⟩
    · simp only [Bool.not_eq_true] at havail
      simp only [logContextReport, havail, Bool.not_false, if_true, Bool.false_eq_true, if_false]
      exact ⟨trivial, hsave, hlen⟩

/-- C1 witness: a concrete unreachable-endpoint delivery. -/
theorem logContextReport_console_fallback_witness :
    (logContextReport ⟨"r-1"⟩ false ⟨none, 0⟩ 0 0 false false []).1 =
      (⟨"console", true⟩ : DeliveryResult) ∧
    (logContextReport ⟨"r-1"⟩ false ⟨none, 0⟩ 0 0 false false []).2.2.head? = some ⟨"r-1"⟩ ∧
    (logContextReport ⟨"r-1"⟩ false ⟨none, 0⟩ 0 0 false false []).2.2.length ≤ 20 :=
  logContextReport_console_fallback ⟨"r-1"⟩ false ⟨none, 0⟩ 0 0 false false [] rfl rfl

/-- C4: after folding more than `MAX_BUFFER_SIZE` (50) buffered console
insertions into an empty buffer, the ring buffer holds exactly 50 entries,
and they are exactly the most recent 50 insertions in insertion order. -/
theorem consoleBuffer_keeps_recent_fifty (calls : List (LogLevel × List ConsoleArg × Nat))
    (hclean : ∀ c ∈ calls, jsIncludes (joinedMessage c.2.1) "[ContextReporter]" = false)
    (hN : MAX_BUFFER_SIZE < calls.length) :
    (bufferAfter calls).length = MAX_BUFFER_SIZE ∧
    bufferAfter calls = (calls.map consoleCallEntry).drop (calls.length - MAX_BUFFER_SIZE) := by
  have h1 : bufferAfter calls =
      (calls.map consoleCallEntry).drop (calls.length - MAX_BUFFER_SIZE) := by
    rw [bufferAfter_eq_foldl calls hclean,
      foldl_trimPush (calls.map consoleCallEntry) [] (by simp [MAX_BUFFER_SIZE])]
    simp only [List.nil_append, List.length_nil, Nat.zero_add, List.length_map]
  refine ⟨?_, h1⟩
  rw [h1, List.length_drop, List.length_map]
  omega

/-- C4 witness: 51 concrete insertions leave the 50 most recent entries. -/
theorem consoleBuffer_keeps_recent_fifty_witness :
    (bufferAfter fiftyOneCalls).length = MAX_BUFFER_SIZE ∧
    bufferAfter fiftyOneCalls =
      (fiftyOneCalls.map consoleCallEntry).drop (fiftyOneCalls.length - MAX_BUFFER_SIZE) :=
  consoleBuffer_keeps_recent_fifty fiftyOneCalls (by decide) (by decide)

/-- C10: while capture is active, a console.error/console.warn invocation
contributes an entry to the ring buffer if and only if its serialized,
space-joined message does not contain the substring "[ContextReporter]" —
so user-emitted messages containing that substring are silently dropped too. -/
theorem addToBuffer_excludes_tagged (buffer : List ConsoleEntry) (level : LogLevel)
    (args : List ConsoleArg) (now : Nat)
    (hfresh : ∀ e ∈ buffer, e.timestamp < now) :
    (∃ e ∈ addToBuffer buffer level args now, e.timestamp = now) ↔
      jsIncludes (joinedMessage args) "[ContextReporter]" = false := by
  by_cases h : jsIncludes (joinedMessage args) "[ContextReporter]"
  · constructor
    · rintro ⟨e, he, hts⟩
      simp only [addToBuffer, h, if_true] at he
      exact absurd hts (Nat.ne_of_lt (hfresh e he))
    · intro hfalse
      rw [h] at hfalse
      exact absurd hfalse (by simp)
  · simp only [Bool.not_eq_true] at h
    constructor
    · intro _
      exact h
    · intro _
      rw [addToBuffer_not_tagged _ _ _ _ h]
      refine ⟨⟨level, jsTake (joinedMessage args) 1000, now⟩, ?_, rfl⟩
      rw [trimBuffer_eq_drop]
      have hdle : (buffer ++
          [(⟨level, jsTake (joinedMessage args) 1000, now⟩ : ConsoleEntry)]).length -
          MAX_BUFFER_SIZE ≤ buffer.length := by
        simp only [List.length_append, List.length_cons, List.length_nil, MAX_BUFFER_SIZE]
        omega
      rw [List.drop_append_of_le_length hdle]
      exact List.mem_append_right _ (by simp)

/-- C10 witness: a user-emitted error message that happens to contain
"[ContextReporter]" is dropped from the buffer. -/
theorem addToBuffer_excludes_tagged_witness :
    ¬ (∃ e ∈ addToBuffer [] LogLevel.error
        [ConsoleArg.prim "oops [ContextReporter] user message"] 5, e.timestamp = 5) := by
  intro hx
  have hiff := addToBuffer_excludes_tagged [] LogLevel.error
    [ConsoleArg.prim "oops [ContextReporter] user message"] 5 (by simp)
  exact absurd (hiff.mp hx) (by decide)

/-- C5 counterexample: the claim "a second check within the 5-second cache
interval after the first probe completed does not re-probe" is false — the
code stores the check's entry time, not the probe completion time. With a
probe that takes 1000 ms (the default timeout, e.g. a timed-out probe), a
second check 4500 ms after the probe completed (5500 ms after entry) probes
the network again. -/
theorem checkServerAvailable_reprobe_counterexample :
    (checkServerAvailable ⟨none, 0⟩ 0 1000 false).probed = true ∧
    (checkServerAvailable ⟨none, 0⟩ 0 1000 false).finishedAt = 1000 ∧
    5500 - (checkServerAvailable ⟨none, 0⟩ 0 1000 false).finishedAt < SERVER_CHECK_INTERVAL ∧
    (checkServerAvailable (checkServerAvailable ⟨none, 0⟩ 0 1000 false).cache
      5500 1000 false).probed = true := by
  decide

/-- C5 (amended): when a check that issued a probe is followed by a second
check within `SERVER_CHECK_INTERVAL` (5000 ms) of the first check's entry
time (the timestamp the code records), the second check issues no probe and
returns the cached result. -/
theorem checkServerAvailable_cached_within_interval (cache : ServerCache)
    (now₁ now₂ d₁ d₂ : Nat) (ok₁ ok₂ : Bool)
    (hprobe : (checkServerAvailable cache now₁ d₁ ok₁).probed = true)
    (h₁₂ : now₁ ≤ now₂) (hlt : now₂ - now₁ < SERVER_CHECK_INTERVAL) :
    (checkServerAvailable (checkServerAvailable cache now₁ d₁ ok₁).cache now₂ d₂ ok₂).probed =
      false ∧
    (checkServerAvailable (checkServerAvailable cache now₁ d₁ ok₁).cache now₂ d₂ ok₂).available =
      (checkServerAvailable cache now₁ d₁ ok₁).available ∧
    (checkServerAvailable (checkServerAvailable cache now₁ d₁ ok₁).cache now₂ d₂ ok₂).cache =
      (checkServerAvailable cache now₁ d₁ ok₁).cache := by
  by_cases hcond : (cache.cachedServerAvailable.isSome &&
      decide (now₁ - cache.lastServerCheck < SERVER_CHECK_INTERVAL)) = true
  · rw [checkServerAvailable, if_pos hcond] at hprobe
    exact absurd hprobe (by simp)
  · have hfirst : checkServerAvailable cache now₁ d₁ ok₁ =
        { available := ok₁, cache := { cachedServerAvailable := some ok₁, lastServerCheck := now₁ },
          probed := true, finishedAt := now₁ + d₁ } := by
      rw [checkServerAvailable, if_neg hcond]
    rw [hfirst]
    have hcond₂ : ((some ok₁).isSome && decide (now₂ - now₁ < SERVER_CHECK_INTERVAL)) = true := by
      simp [hlt]
    rw [checkServerAvailable]
    simp only [hcond₂, if_true]
    exact ⟨trivial, rfl, trivial⟩

/-- C5 witness: a concrete probing check followed by a cached check. -/
theorem checkServerAvailable_cached_within_interval_witness :
    (checkServerAvailable (checkServerAvailable ⟨none, 0⟩ 0 100 true).cache 4000 0 false).probed =
      false ∧
    (checkServerAvailable (checkServerAvailable ⟨none, 0⟩ 0 100 true).cache 4000 0 false).available =
      (checkServerAvailable ⟨none, 0⟩ 0 100 true).available ∧
    (checkServerAvailable (checkServerAvailable ⟨none, 0⟩ 0 100 true).cache 4000 0 false).cache =
      (checkServerAvailable ⟨none, 0⟩ 0 100 true).cache :=
  checkServerAvailable_cached_within_interval ⟨none, 0⟩ 0 4000 100 0 true false
    (by decide) (by decide) (by decide)

theorem cleanArr_mem (xs : List JSVal) (y : JSVal) (hy : y ∈ cleanArr xs) :
    ∃ x ∈ xs, cleanState x = some y ∧ isMeaningfulValue y = true := by
  induction xs with
  | nil => simp [cleanArr] at hy
  | cons x xs ih =>
    rw [cleanArr] at hy
    rcases List.mem_append.mp hy with h | h
    · refine ⟨x, by simp, ?_⟩
      revert h
      cases hcs : cleanState x with
      | none => simp
      | some v =>
        by_cases hm : isMeaningfulValue v
        · simp only [hm, if_true, List.mem_singleton]
          rintro rfl
          exact ⟨rfl, hm⟩
        · simp only [Bool.not_eq_true] at hm
          simp [hm]
    · obtain ⟨x', hx', h1, h2⟩ := ih h
      exact ⟨x', List.mem_cons_of_mem _ hx', h1, h2⟩

theorem cleanObj_mem (es : List (String × JSVal)) (k : String) (y : JSVal)
    (hy : (k, y) ∈ cleanObj es) :
    NOISE_KEYS.contains k = false ∧ jsStartsWith k "$$" = false ∧
    jsStartsWith k "_" = false ∧ isMeaningfulValue y = true ∧
    ∃ v₀, (k, v₀) ∈ es ∧ cleanState v₀ = some y := by
  induction es with
  | nil => simp [cleanObj] at hy
  | cons p rest ih =>
    obtain ⟨k₀, v₀⟩ := p
    rw [cleanObj] at hy
    rcases List.mem_append.mp hy with h | h
    · by_cases hn : NOISE_KEYS.contains k₀ = true
      · rw [if_pos hn] at h
        exact absurd h (by simp)
      · rw [if_neg hn] at h
        by_cases hp : (jsStartsWith k₀ "$$" || jsStartsWith k₀ "_") = true
        · rw [if_pos hp] at h
          exact absurd h (by simp)
        · rw [if_neg hp] at h
          simp only [Bool.or_eq_true, not_or, Bool.not_eq_true] at hp
          revert h
          cases hcs : cleanState v₀ with
          | none =>
            intro h
            exact absurd h (by simp)
          | some cv =>
            by_cases hm : isMeaningfulValue cv = true
            · intro h
              dsimp only at h
              rw [if_pos hm, List.mem_singleton, Prod.mk.injEq] at h
              obtain ⟨rfl, rfl⟩ := h
              simp only [Bool.not_eq_true] at hn
              exact ⟨hn, hp.1, hp.2, hm, v₀, by simp, hcs⟩
            · intro h
              dsimp only at h
              rw [if_neg hm] at h
              exact absurd h (by simp)
    · obtain ⟨h1, h2, h3, h4, v₀', hv₀', h5⟩ := ih h
      exact ⟨h1, h2, h3, h4, v₀', List.mem_cons_of_mem _ hv₀', h5⟩

theorem cleanOKArr_of (l : List JSVal)
    (h : ∀ x ∈ l, isMeaningfulValue x = true ∧ cleanOK x = true) : cleanOKArr l = true := by
  induction l with
  | nil => rw [cleanOKArr]
  | cons x xs ih =>
    rw [cleanOKArr]
    have hx := h x (by simp)
    simp [hx.1, hx.2, ih (fun y hy => h y (by simp [hy]))]

theorem cleanOKObj_of (l : List (String × JSVal))
    (h : ∀ p ∈ l, NOISE_KEYS.contains p.1 = false ∧ jsStartsWith p.1 "$$" = false ∧
      jsStartsWith p.1 "_" = false ∧ isMeaningfulValue p.2 = true ∧ cleanOK p.2 = true) :
    cleanOKObj l = true := by
  induction l with
  | nil => rw [cleanOKObj]
  | cons p rest ih =>
    obtain ⟨k, v⟩ := p
    rw [cleanOKObj]
    have hp := h (k, v) (by simp)
    dsimp only at hp
    rw [hp.1, hp.2.1, hp.2.2.1, hp.2.2.2.1, hp.2.2.2.2,
      ih (fun q hq => h q (by simp [hq]))]
    decide

/-- C6 counterexample: the claim quantifies over every input state, but
`cleanState` returns primitive inputs unchanged, so `cleanState(false)` is
itself the non-meaningful value `false` — the result contains a `false`
value (at its root nesting level). -/
theorem cleanState_false_counterexample :
    cleanState (JSVal.bool false) = some (JSVal.bool false) ∧
    isMeaningfulValue (JSVal.bool false) = false := by
  constructor
  · simp [cleanState]
  · rfl

/-- C6 (amended): for every input state `S`, whenever `cleanState S` returns
a value, no object anywhere in the result carries a noise key or a
`$$`/`_`-prefixed key, and every value stored strictly inside the result
(object entry or array element, at any depth) is meaningful — none of
null/undefined/empty string/false/empty array/empty object. A primitive
input itself (such as `false` or `""`) is returned unchanged. -/
theorem cleanState_sound (S v : JSVal) (h : cleanState S = some v) : cleanOK v = true := by
  suffices H : ∀ (n : Nat) (S v : JSVal), sizeOf S ≤ n → cleanState S = some v →
      cleanOK v = true from H (sizeOf S) S v le_rfl h
  intro n
  induction n with
  | zero =>
    intro S v hS _
    cases S <;> simp at hS
  | succ n ih =>
    intro S v hS hc
    cases S with
    | null => rw [cleanState] at hc; exact absurd hc (by simp)
    | undef => rw [cleanState] at hc; exact absurd hc (by simp)
    | bool b =>
      simp only [cleanState, Option.some.injEq] at hc
      subst hc
      simp [cleanOK]
    | num m =>
      simp only [cleanState, Option.some.injEq] at hc
      subst hc
      simp [cleanOK]
    | str s =>
      simp only [cleanState, Option.some.injEq] at hc
      subst hc
      simp [cleanOK]
    | func =>
      simp only [cleanState, Option.some.injEq] at hc
      subst hc
      simp [cleanOK]
    | bigintVal =>
      simp only [cleanState, Option.some.injEq] at hc
      subst hc
      simp [cleanOK]
    | arr xs =>
      rw [cleanState] at hc
      by_cases he : (cleanArr xs).isEmpty
      · rw [if_pos he] at hc
        exact absurd hc (by simp)
      · rw [if_neg he, Option.some.injEq] at hc
        rw [← hc, cleanOK]
        apply cleanOKArr_of
        intro y hy
        obtain ⟨x, hx, hcs, hm⟩ := cleanArr_mem xs y hy
        have hsz : sizeOf x ≤ n := by
          have h1 := List.sizeOf_lt_of_mem hx
          have h2 : sizeOf (JSVal.arr xs) = 1 + sizeOf xs := by simp
          omega
        exact ⟨hm, ih x y hsz hcs⟩
    | obj es =>
      rw [cleanState] at hc
      by_cases he : (cleanObj es).isEmpty
      · rw [if_pos he] at hc
        exact absurd hc (by simp)
      · rw [if_neg he, Option.some.injEq] at hc
        rw [← hc, cleanOK]
        apply cleanOKObj_of
        intro p hp
        obtain ⟨k, y⟩ := p
        obtain ⟨h1, h2, h3, h4, v₀, hv₀, hcs⟩ := cleanObj_mem es k y hp
        have hsz : sizeOf v₀ ≤ n := by
          have ha := List.sizeOf_lt_of_mem hv₀
          have hb : sizeOf (k, v₀) = 1 + sizeOf k + sizeOf v₀ := by simp
          have hd : sizeOf (JSVal.obj es) = 1 + sizeOf es := by simp
          have hk : 0 ≤ sizeOf k := by omega
          omega
        exact ⟨h1, h2, h3, h4, ih v₀ y hsz hcs⟩

/-- C6 witness: a sample adapter state with a noise key, an internal-prefix
key and an empty-object value cleans to a single meaningful entry. -/
theorem cleanState_sound_witness :
    cleanState sampleState = some (JSVal.obj [("a", JSVal.num 1)]) ∧
    cleanOK (JSVal.obj [("a", JSVal.num 1)]) = true := by
  have h : cleanState sampleState = some (JSVal.obj [("a", JSVal.num 1)]) := by
    simp +decide [sampleState, cleanState, cleanObj, cleanArr, isMeaningfulValue, NOISE_KEYS]
  exact ⟨h, cleanState_sound sampleState _ h⟩

theorem captureAdapters_ok (adapters : List StateAdapter) (ek : Option (List String))
    (h : ∀ a ∈ adapters, (∃ b, a.isAvailable = Except.ok b) ∧
      ∃ s, a.getState = Except.ok s) :
    ∃ st, captureAdapters adapters ek = .ok st := by
  induction adapters with
  | nil => exact ⟨[], rfl⟩
  | cons a rest ih =>
    obtain ⟨⟨b, hb⟩, ⟨s, hs⟩⟩ := h a (by simp)
    obtain ⟨st, hst⟩ := ih (fun a ha => h a (by simp [ha]))
    have hcontrib : ∃ entry?, adapterContribution a ek = .ok entry? := by
      rw [adapterContribution, hb]
      cases b with
      | false => exact ⟨none, rfl⟩
      | true =>
        dsimp only
        rw [hs]
        cases s with
        | none => exact ⟨none, rfl⟩
        | some adapterState =>
          dsimp only
          split <;> (try split) <;> (try split) <;> exact ⟨_, rfl⟩
    obtain ⟨entry?, he⟩ := hcontrib
    rw [captureAdapters, he, hst]
    cases entry? with
    | some e => exact ⟨e :: st, rfl⟩
    | none => exact ⟨st, rfl⟩

/-- C8 counterexample: `captureAppState` does not guard adapter calls — an
adapter whose `isAvailable` throws makes the whole capture throw, and the
later healthy adapter (which alone contributes its state) never runs. -/
theorem captureAppState_adapter_throw_counterexample :
    captureAppState [throwingAdapter, healthyAdapter] none none = .error () ∧
    captureAppState [healthyAdapter] none none =
      .ok [("good", JSVal.obj [("value", JSVal.num 1)])] := by
  constructor
  · rfl
  · simp +decide [captureAppState, captureAdapters, adapterContribution, healthyAdapter,
      cleanState, cleanObj, cleanArr, isMeaningfulValue, NOISE_KEYS, jsKeysLength, filterState]

/-- C8 (amended): `captureAppState` itself guards only the custom state
getter; an adapter exception propagates (see the counterexample). What the
code does guarantee: (a) with adapters whose `isAvailable`/`getState` do not
throw, the capture succeeds for every custom getter — including a throwing
one; (b) a throwing custom getter is swallowed, leaving the result exactly
as if no getter were supplied; (c) the built-in redux adapter catches a
store whose `getState()` throws and yields `null` rather than an exception. -/
theorem captureAppState_guards (adapters : List StateAdapter)
    (h : ∀ a ∈ adapters, (∃ b, a.isAvailable = Except.ok b) ∧
      ∃ s, a.getState = Except.ok s) :
    (∀ (g : Except Unit JSVal) (ek : Option (List String)),
      ∃ st, captureAppState adapters (some g) ek = .ok st) ∧
    (∀ ek : Option (List String),
      captureAppState adapters (some (.error ())) ek = captureAppState adapters none ek) ∧
    (∀ store : ReduxStore, store.getState = .error () →
      reduxAdapterGetState (some store) = none) := by
  refine ⟨?_, ?_, ?_⟩
  · intro g ek
    obtain ⟨st, hst⟩ := captureAdapters_ok adapters ek h
    rw [captureAppState, hst]
    cases g with
    | error e => exact ⟨st, rfl⟩
    | ok custom =>
      dsimp only
      split <;> (try split) <;> exact ⟨_, rfl⟩
  · intro ek
    obtain ⟨st, hst⟩ := captureAdapters_ok adapters ek h
    rw [captureAppState, captureAppState, hst]
  · intro store hthrow
    rw [reduxAdapterGetState, hthrow]

/-- C8 witness: with the healthy adapter, a throwing custom getter is
swallowed, and the redux adapter turns a throwing store into `null`. -/
theorem captureAppState_guards_witness :
    captureAppState [healthyAdapter] (some (.error ())) none =
      captureAppState [healthyAdapter] none none ∧
    reduxAdapterGetState (some brokenStore) = none := by
  have h := captureAppState_guards [healthyAdapter] (by
    intro a ha
    rw [List.mem_singleton] at ha
    subst ha
    exact ⟨⟨true, rfl⟩, ⟨_, rfl⟩⟩)
  exact ⟨h.2.1 none, h.2.2 brokenStore rfl⟩

theorem strMk_length (l : List Char) : (String.mk l).length = l.length := rfl

theorem jsTake_length_le (s : String) (n : Nat) : (jsTake s n).length ≤ n := by
  rw [jsTake, strMk_length, List.length_take]
  exact Nat.min_le_left _ _

theorem collectParents_length_le (l : List (ElementCore × Bool)) (d : Nat) :
    (collectParents l d).length ≤ 3 - d := by
  induction l generalizing d with
  | nil => simp [collectParents]
  | cons p rest ih =>
    obtain ⟨c, isBody⟩ := p
    rw [collectParents]
    by_cases hb : (isBody || decide (3 ≤ d)) = true
    · rw [if_pos hb]
      simp
    · rw [if_neg hb]
      simp only [Bool.or_eq_true, not_or, Bool.not_eq_true, decide_eq_true_eq] at hb
      simp only [List.length_cons]
      have := ih (d + 1)
      omega

/-- C2 counterexample: `extractElementInfo` contains no internal guards — an
element whose `getBoundingClientRect` throws (e.g. a proxy-backed element)
makes the whole extraction throw instead of yielding a snapshot with safe
defaults. -/
theorem extractElementInfo_throw_counterexample :
    extractElementInfo proxyElement = .error () := rfl

/-- C2 (amended): `extractElementInfo` has no per-sub-extraction guards; an
exception from `getBoundingClientRect` or `getComputedStyle` propagates to
the caller (which wraps the whole capture). Whenever those two calls
succeed, the extraction returns a snapshot — missing data is represented by
defaults such as the empty string — and does not throw. -/
theorem extractElementInfo_ok_of_subcalls_ok (e : ElementData) (r : JsRect)
    (cs : List (String × String)) (hr : e.rect = .ok r) (hc : e.computed = .ok cs) :
    (extractElementInfo e).isOk = true := by
  rw [extractElementInfo, hr]
  dsimp only
  rw [extractComputedStyles, hc]
  rfl

/-- C2 witness: a concrete well-behaved element yields a snapshot. -/
theorem extractElementInfo_ok_witness : (extractElementInfo plainButton).isOk = true :=
  extractElementInfo_ok_of_subcalls_ok plainButton { x := 0, y := 0, width := 10, height := 10 }
    [("display", "flex")] rfl rfl

/-- C7: whenever `extractElementInfo` returns a snapshot, its text content is
at most 150 characters plus the 3-character ellipsis, every surviving
attribute value is at most 200 plus the ellipsis, the inner-HTML preview is
at most 300 plus the ellipsis, and the DOM-context parent chain has at most
3 levels — for every element, detached ones included. -/
theorem extractElementInfo_bounds (e : ElementData) (info : ElementInfo)
    (h : extractElementInfo e = .ok info) :
    info.textContent.length ≤ 153 ∧
    (∀ p ∈ info.attributes, p.2.length ≤ 203) ∧
    info.domContext.innerHTML.length ≤ 303 ∧
    info.domContext.parents.length ≤ 3 := by
  rw [extractElementInfo] at h
  cases hrect : e.rect with
  | error er =>
    rw [hrect] at h
    exact absurd h (by simp)
  | ok r =>
    rw [hrect] at h
    dsimp only at h
    cases hcs : extractComputedStyles e with
    | error er =>
      rw [hcs] at h
      exact absurd h (by simp)
    | ok cs =>
      rw [hcs] at h
      rw [Except.ok.injEq] at h
      subst h
      refine ⟨?_, ?_, ?_, ?_⟩
      · dsimp only
        by_cases ht : 150 < (jsTrim ((e.core.textContent).getD "")).length
      
        · rw [if_pos ht, String.length_append]
          have := jsTake_length_le (jsTrim ((e.core.textContent).getD "")) 150
          have he : ("..." : String).length = 3 := rfl
          omega
        · rw [if_neg ht]
          omega
      · dsimp only
        intro p hp
        rw [List.mem_filterMap] at hp
        obtain ⟨attr, _, hattr⟩ := hp
        by_cases hskip : ["id", "class", "style"].contains attr.1 = true
        · rw [if_pos hskip] at hattr
          exact absurd hattr (by simp)
        · rw [if_neg hskip] at hattr
          by_cases hlong : 200 < attr.2.length
          · rw [if_pos hlong, Option.some.injEq] at hattr
            rw [← hattr]
            dsimp only
            rw [String.length_append]
            have := jsTake_length_le attr.2 200
            have he : ("..." : String).length = 3 := rfl
            omega
          · rw [if_neg hlong, Option.some.injEq] at hattr
            rw [← hattr]
            dsimp only
            omega
      · dsimp only [extractDOMContext]
        by_cases hh : 300 < (jsTrim e.core.innerHTML).length
        · rw [if_pos hh, String.length_append]
          have := jsTake_length_le (jsTrim e.core.innerHTML) 300
          have he : ("..." : String).length = 3 := rfl
          omega
        · rw [if_neg hh]
          omega
      · dsimp only [extractDOMContext]
        have := collectParents_length_le e.contextAncestors 0
        omega

/-- The snapshot that `extractElementInfo` produces for `plainButton`. -/
def plainButtonInfo : ElementInfo :=
  { tagName := "BUTTON", id := "save-btn", className := "", textContent := "Save",
    attributes := [("type", "submit")],
    boundingRect := { x := 0, y := 0, width := 10, height := 10 },
    selector := "#save-btn",
    computedStyles :=
      [("display", "flex"), ("position", ""), ("visibility", ""), ("opacity", ""),
       ("width", ""), ("height", ""), ("padding", ""), ("margin", ""), ("border", ""),
       ("backgroundColor", ""), ("color", ""), ("fontSize", ""), ("fontWeight", ""),
       ("cursor", ""), ("pointerEvents", ""), ("overflow", ""), ("zIndex", "")],
    domContext := { parents := [], previousSibling := none, nextSibling := none,
                    childCount := 0, innerHTML := "Save" },
    accessibility := { role := none, ariaLabel := none, ariaDescribedBy := none,
                       ariaDisabled := none, tabIndex := none } }

/-- C7 witness: the snapshot of `plainButton` obeys every bound. -/
theorem extractElementInfo_bounds_witness :
    extractElementInfo plainButton = .ok plainButtonInfo ∧
    plainButtonInfo.textContent.length ≤ 153 ∧
    plainButtonInfo.attributes.all (fun p => p.2.length ≤ 203) = true ∧
    plainButtonInfo.domContext.innerHTML.length ≤ 303 ∧
    plainButtonInfo.domContext.parents.length ≤ 3 := by
  have h : extractElementInfo plainButton = .ok plainButtonInfo := rfl
  have hb := extractElementInfo_bounds plainButton plainButtonInfo h
  exact ⟨h, hb.1, by decide, hb.2.2.1, hb.2.2.2⟩

theorem addAttrComponents_mem (attrs : List (Option String)) (seen : List String)
    (acc : List ComponentPathItem) (item : ComponentPathItem)
    (h : item ∈ addAttrComponents attrs seen acc) :
    item ∈ acc ∨ (item.source = "attribute" ∧ some item.name ∈ attrs) := by
  induction attrs generalizing seen acc with
  | nil =>
    rw [addAttrComponents.eq_def] at h
    exact Or.inl h
  | cons oattr rest ih =>
    cases oattr with
    | none =>
      rw [addAttrComponents.eq_def] at h
      dsimp only at h
      rcases ih _ _ h with h1 | h2
      · exact Or.inl h1
      · exact Or.inr ⟨h2.1, List.mem_cons_of_mem _ h2.2⟩
    | some a =>
      rw [addAttrComponents.eq_def] at h
      dsimp only at h
      split at h
      · rcases ih _ _ h with h1 | h2
        · rcases List.mem_append.mp h1 with h3 | h3
          · exact Or.inl h3
          · rw [List.mem_singleton] at h3
            subst h3
            exact Or.inr ⟨rfl, by simp⟩
        · exact Or.inr ⟨h2.1, List.mem_cons_of_mem _ h2.2⟩
      · rcases ih _ _ h with h1 | h1
        · exact Or.inl h1
        · exact Or.inr ⟨h1.1, List.mem_cons_of_mem _ h1.2⟩

/-- C3: when no framework-internal fiber node is attached to the element,
`extractComponentPath` returns a list derived only from `data-component`
attributes (possibly empty): every item is attribute-sourced and its name is
one of the ancestors' `data-component` values. (The embedding is total, so
the traversal cannot raise.) -/
theorem extractComponentPath_no_fiber (e : PCElement) (h : getFiberFromElement e = none) :
    ∀ item ∈ extractComponentPath e,
      item.source = "attribute" ∧ some item.name ∈ e.ancestorAttrs := by
  intro item hitem
  have hall : allComponents e = addAttrComponents e.ancestorAttrs [] [] := by
    rw [allComponents, h]
    rfl
  have hmem : item ∈ allComponents e := by
    rw [extractComponentPath] at hitem
    split at hitem
    · exact List.mem_of_mem_drop hitem
    · exact List.mem_of_mem_filter hitem
  rw [hall] at hmem
  rcases addAttrComponents_mem _ _ _ _ hmem with h1 | h2
  · exact absurd h1 (by simp)
  · exact h2

/-- C3 witness: a fiberless element with one `data-component` ancestor. -/
theorem extractComponentPath_no_fiber_witness :
    extractComponentPath attrOnlyElement = [{ name := "MyWidget", source := "attribute" }] ∧
    ({ name := "MyWidget", source := "attribute" } : ComponentPathItem).source = "attribute" ∧
    some "MyWidget" ∈ attrOnlyElement.ancestorAttrs := by
  have heq : extractComponentPath attrOnlyElement =
      [{ name := "MyWidget", source := "attribute" }] := rfl
  have h := extractComponentPath_no_fiber attrOnlyElement rfl
    { name := "MyWidget", source := "attribute" } (by rw [heq]; simp)
  exact ⟨heq, h.1, h.2⟩

/-- C9: if filtering framework-noise names out of the resolved list would
remove every component while the unfiltered list is non-empty,
`extractComponentPath` returns the last at-most-5 raw entries instead of an
empty list; otherwise it returns exactly the non-noise components. -/
theorem extractComponentPath_noise_fallback (e : PCElement) :
    ((allComponents e).filter (fun c => !isFrameworkComponent c.name) = [] →
      allComponents e ≠ [] →
      extractComponentPath e = (allComponents e).drop ((allComponents e).length - 5) ∧
      (extractComponentPath e).length ≤ 5) ∧
    ((allComponents e).filter (fun c => !isFrameworkComponent c.name) ≠ [] →
      extractComponentPath e = (allComponents e).filter (fun c => !isFrameworkComponent c.name) ∧
      ∀ c ∈ extractComponentPath e, isFrameworkComponent c.name = false) := by
  constructor
  · intro hfil hne
    have hcond : (((allComponents e).filter fun c => !isFrameworkComponent c.name).isEmpty &&
        !(allComponents e).isEmpty) = true := by
      simp [List.isEmpty_iff, hfil, hne]
    have hres : extractComponentPath e =
        (allComponents e).drop ((allComponents e).length - 5) := by
      rw [extractComponentPath]
      rw [if_pos hcond]
    refine ⟨hres, ?_⟩
    rw [hres, List.length_drop]
    omega
  · intro hfil
    have hcond : (((allComponents e).filter fun c => !isFrameworkComponent c.name).isEmpty &&
        !(allComponents e).isEmpty) = false := by
      simp [List.isEmpty_iff, hfil]
    have hres : extractComponentPath e =
        (allComponents e).filter (fun c => !isFrameworkComponent c.name) := by
      rw [extractComponentPath]
      rw [hcond]
      simp
    refine ⟨hres, ?_⟩
    intro c hc
    rw [hres] at hc
    have := List.of_mem_filter hc
    simpa using this

/-- C9 witness: an element whose fiber chain holds only the noise components
Router and Provider falls back to the raw entries instead of an empty list. -/
theorem extractComponentPath_noise_fallback_witness :
    extractComponentPath noiseOnlyElement =
      [{ name := "Provider", source := "fiber" }, { name := "Router", source := "fiber" }] ∧
    (extractComponentPath noiseOnlyElement).length ≤ 5 := by
  have hval : allComponents noiseOnlyElement =
      [{ name := "Provider", source := "fiber" }, { name := "Router", source := "fiber" }] := rfl
  have h := (extractComponentPath_noise_fallback noiseOnlyElement).1
    (by rw [hval]; rfl) (by rw [hval]; simp)
  refine ⟨?_, h.2⟩
  rw [h.1, hval]
  rfl
